import Mathlib

/-!
# libartnet, `artnet/private.h`

A shallow embedding of the constants, macros and enumerations of the private
header of libartnet, and the properties of the wire format that follow from
them.

C values are embedded as natural numbers. Every macro below is applied to
non-negative operands that fit a byte or a 16-bit short; after the integer
promotions all intermediate results stay below `2 ^ 16`, far from the range of
`int`, so the bit operators of C agree with those of `Nat`.
-/

namespace Artnet

/-! ## Constants (private.h, lines 45-100) -/

/-- The UDP port to listen on and send from: `#define ARTNET_PORT 6454`. -/
def ARTNET_PORT : Nat := 6454

/-- The array denoted by the literal `"Art-Net\0"`: the eight written
characters, then the terminator the compiler appends to every string literal. -/
def ARTNET_STRING : List Nat :=
  (['A', 'r', 't', '-', 'N', 'e', 't', Char.ofNat 0].map Char.toNat) ++ [0]

def ARTNET_STRING_SIZE : Nat := 8

def ARTNET_VERSION : Nat := 14
def OEM_HI : Nat := 0x04
def OEM_LO : Nat := 0x30
def ESTA_HI : Nat := 'z'.toNat
def ESTA_LO : Nat := 'p'.toNat

def PROGRAM_NO_CHANGE : Nat := 0x7f
def PROGRAM_DEFAULTS : Nat := 0x00
def PROGRAM_CHANGE_MASK : Nat := 0x80

def HIGH_NIBBLE : Nat := 0xF0
def LOW_NIBBLE : Nat := 0x0F

def PORT_STATUS_LPT_MODE : Nat := 0x02
def PORT_STATUS_SHORT : Nat := 0x04
def PORT_STATUS_ERROR : Nat := 0x04
def PORT_STATUS_DISABLED_MASK : Nat := 0x08
def PORT_STATUS_MERGE : Nat := 0x08
def PORT_STATUS_DMX_TEXT : Nat := 0x10
def PORT_STATUS_DMX_SIP : Nat := 0x20
def PORT_STATUS_DMX_TEST : Nat := 0x40
def PORT_STATUS_ACT_MASK : Nat := 0x80

def MIN_PACKET_SIZE : Nat := 10

def MERGE_TIMEOUT_SECONDS : Nat := 10

def FIRMWARE_TIMEOUT_SECONDS : Nat := 20

def LOW_BYTE : Nat := 0x00FF
def HIGH_BYTE : Nat := 0xFF00

/-! ## Macros (private.h, lines 102-130) -/

/-- The macro `#define min(a,b) ((a) < (b) ? (a) : (b))`. -/
def min (a b : Nat) : Nat := if a < b then a else b

/-- The macro `#define max(a,b) ((a) > (b) ? (a) : (b))`. -/
def max (a b : Nat) : Nat := if a > b then a else b

/-- The macro `#define bswap_16(x) ((((x) >> 8) & 0xff) | (((x) & 0xff) << 8))`. -/
def bswap_16 (x : Nat) : Nat := ((x >>> 8) &&& 0xff) ||| ((x &&& 0xff) <<< 8)

/-- The macro `htols` (host to little-endian short), lines 112-124. The
preprocessor picks the definition: with `HAVE_ENDIAN_H` defined it compares
`BYTE_ORDER` with `__BIG_ENDIAN`, otherwise with `BIG_ENDIAN`; when they are
equal `htols(x)` is `bswap_16 (x)`, else it is `(x)`. The three preprocessor
values are parameters, `BIG_ENDIAN__` standing for `__BIG_ENDIAN`. -/
def htols (HAVE_ENDIAN_H : Bool) (BYTE_ORDER BIG_ENDIAN__ BIG_ENDIAN : Nat) (x : Nat) : Nat :=
  if HAVE_ENDIAN_H then
    (if BYTE_ORDER = BIG_ENDIAN__ then bswap_16 x else x)
  else
    (if BYTE_ORDER = BIG_ENDIAN then bswap_16 x else x)

/-- The macro `#define short_get_high_byte(x) ((HIGH_BYTE & x) >> 8)`. -/
def short_get_high_byte (x : Nat) : Nat := (HIGH_BYTE &&& x) >>> 8

/-- The macro `#define short_get_low_byte(x) (LOW_BYTE & x)`. -/
def short_get_low_byte (x : Nat) : Nat := LOW_BYTE &&& x

/-- The macro `#define bytes_to_short(h,l) ( ((h << 8) & 0xff00) | (l & 0x00FF) ) ;`
(the value of the expression; the trailing semicolon ends the statement it is
used in). -/
def bytes_to_short (h l : Nat) : Nat := ((h <<< 8) &&& 0xff00) ||| (l &&& 0x00FF)

/-! ## The firmware block types (private.h, lines 185-193) -/

/-- The enumeration `artnet_firmware_type_code`. -/
inductive artnet_firmware_type_code where
  | ARTNET_FIRMWARE_FIRMFIRST
  | ARTNET_FIRMWARE_FIRMCONT
  | ARTNET_FIRMWARE_FIRMLAST
  | ARTNET_FIRMWARE_UBEAFIRST
  | ARTNET_FIRMWARE_UBEACONT
  | ARTNET_FIRMWARE_UBEALAST
  deriving DecidableEq

open artnet_firmware_type_code

/-- The integer value the header gives each enumerator. -/
def artnet_firmware_type_code.code : artnet_firmware_type_code → Nat
  | ARTNET_FIRMWARE_FIRMFIRST => 0x00
  | ARTNET_FIRMWARE_FIRMCONT => 0x01
  | ARTNET_FIRMWARE_FIRMLAST => 0x02
  | ARTNET_FIRMWARE_UBEAFIRST => 0x03
  | ARTNET_FIRMWARE_UBEACONT => 0x04
  | ARTNET_FIRMWARE_UBEALAST => 0x05

/-- All six enumerators, in the order of the header. -/
def artnet_firmware_type_code.all : List artnet_firmware_type_code :=
  [ARTNET_FIRMWARE_FIRMFIRST, ARTNET_FIRMWARE_FIRMCONT, ARTNET_FIRMWARE_FIRMLAST,
   ARTNET_FIRMWARE_UBEAFIRST, ARTNET_FIRMWARE_UBEACONT, ARTNET_FIRMWARE_UBEALAST]

/-- Whether the enumerator names a block of the UBEA region (`UBEA...`) rather
than of the firmware proper (`FIRM...`). -/
def artnet_firmware_type_code.isUbea : artnet_firmware_type_code → Bool
  | ARTNET_FIRMWARE_FIRMFIRST => false
  | ARTNET_FIRMWARE_FIRMCONT => false
  | ARTNET_FIRMWARE_FIRMLAST => false
  | ARTNET_FIRMWARE_UBEAFIRST => true
  | ARTNET_FIRMWARE_UBEACONT => true
  | ARTNET_FIRMWARE_UBEALAST => true

/-- The place of the block in a transfer, read off the enumerator's name:
`...FIRST` is 0, `...CONT` is 1, `...LAST` is 2. -/
def artnet_firmware_type_code.phase : artnet_firmware_type_code → Nat
  | ARTNET_FIRMWARE_FIRMFIRST => 0
  | ARTNET_FIRMWARE_FIRMCONT => 1
  | ARTNET_FIRMWARE_FIRMLAST => 2
  | ARTNET_FIRMWARE_UBEAFIRST => 0
  | ARTNET_FIRMWARE_UBEACONT => 1
  | ARTNET_FIRMWARE_UBEALAST => 2

/-- The UBEA block type of the same phase as a block type. -/
def artnet_firmware_type_code.ubeaVariant : artnet_firmware_type_code → artnet_firmware_type_code
  | ARTNET_FIRMWARE_FIRMFIRST => ARTNET_FIRMWARE_UBEAFIRST
  | ARTNET_FIRMWARE_FIRMCONT => ARTNET_FIRMWARE_UBEACONT
  | ARTNET_FIRMWARE_FIRMLAST => ARTNET_FIRMWARE_UBEALAST
  | ARTNET_FIRMWARE_UBEAFIRST => ARTNET_FIRMWARE_UBEAFIRST
  | ARTNET_FIRMWARE_UBEACONT => ARTNET_FIRMWARE_UBEACONT
  | ARTNET_FIRMWARE_UBEALAST => ARTNET_FIRMWARE_UBEALAST

/-! ## The host and the merge loop -/

/-- The two byte orders a host can have. -/
inductive ByteOrder where
  | little
  | big
  deriving DecidableEq

/-- The bytes, at increasing addresses, of a `uint16_t` object that is assigned
the value `v` on a host of the given byte order (the assignment keeps the low
16 bits). This describes the C platform, not the header. -/
def store16 (host : ByteOrder) (v : Nat) : List Nat :=
  match host with
  | ByteOrder.little => [v % 65536 % 256, v % 65536 / 256]
  | ByteOrder.big => [v % 65536 / 256, v % 65536 % 256]

/-- Modelled from the spec: the HTP merge loop over the two source buffers
`dataA` and `dataB` of an `output_port_t` lives in receive.c, which is not part
of the sources at hand. Following "HTP: per-channel `max(A[i], B[i])` when both
slots are live", channel `i` of the output is the macro `max` applied to
channel `i` of the two buffers. -/
def merge_htp (dataA dataB : List Nat) : List Nat :=
  List.zipWith max dataA dataB

/-! ## The port status byte -/

/-- The eight masks of the port status conditions, in the order LPT-merge mode,
short-circuit, error, disabled, text mode, SIP mode, test mode, activity. -/
def port_status_masks : List Nat :=
  [PORT_STATUS_LPT_MODE, PORT_STATUS_SHORT, PORT_STATUS_ERROR, PORT_STATUS_DISABLED_MASK,
   PORT_STATUS_DMX_TEXT, PORT_STATUS_DMX_SIP, PORT_STATUS_DMX_TEST, PORT_STATUS_ACT_MASK]

/-- The masks of one status byte in which bit 0x04 stands for a single
condition (short-circuit or error): `port_status_masks` without
`PORT_STATUS_ERROR`. -/
def port_status_masks_one_byte : List Nat :=
  [PORT_STATUS_LPT_MODE, PORT_STATUS_SHORT, PORT_STATUS_DISABLED_MASK,
   PORT_STATUS_DMX_TEXT, PORT_STATUS_DMX_SIP, PORT_STATUS_DMX_TEST, PORT_STATUS_ACT_MASK]

/-- The status byte in which, for each mask, the condition is recorded when its
flag is true: `status |= MASK` for each true flag, starting from 0. -/
def port_status_set (masks : List Nat) (conds : List Bool) : Nat :=
  (List.zipWith (fun m c => if c then m else 0) masks conds).foldl (fun st m => st ||| m) 0

/-- The conditions read from a status byte: `(status & MASK) != 0` for each
mask. -/
def port_status_read (masks : List Nat) (status : Nat) : List Bool :=
  masks.map (fun m => status &&& m != 0)

/-! ## Bit-level facts shared by the proofs -/

theorem and_ff (x : Nat) : x &&& 0xff = x % 256 :=
  Nat.and_pow_two_sub_one_eq_mod x 8

theorem ff_and (x : Nat) : 0xff &&& x = x % 256 := by
  rw [Nat.and_comm]; exact and_ff x

theorem shr8 (x : Nat) : x >>> 8 = x / 256 :=
  Nat.shiftRight_eq_div_pow x 8

theorem shl8 (x : Nat) : x <<< 8 = x * 256 :=
  Nat.shiftLeft_eq x 8

/-- Masking with `0xff00` keeps the second byte in place. -/
theorem and_ff00 (x : Nat) : x &&& 0xff00 = x / 256 % 256 * 256 := by
  have h : (0xff00 : Nat) = (2 ^ 8 - 1) <<< 8 := by decide
  have e : x / 256 % 256 * 256 = ((x >>> 8) % 2 ^ 8) <<< 8 := by
    rw [shr8, shl8]; rfl
  rw [h, e]
  apply Nat.eq_of_testBit_eq
  intro i
  simp only [Nat.testBit_and, Nat.testBit_shiftLeft, Nat.testBit_two_pow_sub_one,
    Nat.testBit_mod_two_pow, Nat.testBit_shiftRight]
  by_cases hi : i ≥ 8
  · have : 8 + (i - 8) = i := by omega
    simp [hi, this, Bool.and_comm]
  · simp [hi]

theorem ff00_and (x : Nat) : 0xff00 &&& x = x / 256 % 256 * 256 := by
  rw [Nat.and_comm]; exact and_ff00 x

/-- A byte placed in the second byte and a byte placed in the first do not
overlap, so or-ing them adds them. -/
theorem or_bytes (a b : Nat) (hb : b < 256) : a * 256 ||| b = a * 256 + b := by
  have := Nat.mul_add_lt_is_or (i := 8) hb a
  rw [Nat.mul_comm] at this
  exact this.symm

theorem or_bytes_comm (a b : Nat) (hb : b < 256) : b ||| a * 256 = a * 256 + b := by
  rw [Nat.or_comm]; exact or_bytes a b hb

/-- The value of `bswap_16` in arithmetic: the two low bytes change places and
everything above them is dropped. -/
theorem bswap_16_eq (x : Nat) : bswap_16 x = x % 256 * 256 + x / 256 % 256 := by
  unfold bswap_16
  rw [and_ff, and_ff, shr8, shl8]
  exact or_bytes_comm _ _ (Nat.mod_lt _ (by decide))

/-- The value of `bytes_to_short` in arithmetic. -/
theorem bytes_to_short_eq (h l : Nat) : bytes_to_short h l = h % 256 * 256 + l % 256 := by
  unfold bytes_to_short
  rw [and_ff00, and_ff, shl8, Nat.mul_div_cancel _ (by decide : 0 < 256)]
  exact or_bytes _ _ (Nat.mod_lt _ (by decide))

theorem short_get_high_byte_eq (x : Nat) : short_get_high_byte x = x / 256 % 256 := by
  unfold short_get_high_byte HIGH_BYTE
  rw [ff00_and, shr8, Nat.mul_div_cancel _ (by decide : 0 < 256)]

theorem short_get_low_byte_eq (x : Nat) : short_get_low_byte x = x % 256 := by
  unfold short_get_low_byte LOW_BYTE
  exact ff_and x

theorem split_div (a b : Nat) (hb : b < 256) : (a * 256 + b) / 256 = a := by
  omega

theorem split_mod (a b : Nat) (hb : b < 256) : (a * 256 + b) % 256 = b := by
  omega

theorem max_macro_comm (a b : Nat) : max a b = max b a := by
  unfold max
  split <;> split <;> omega

theorem max_eq_natMax (a b : Nat) : max a b = Nat.max a b := by
  unfold max
  split
  · exact (Nat.max_eq_left (by omega)).symm
  · exact (Nat.max_eq_right (by omega)).symm

/-- The two nibble masks split every value below 256 without loss. -/
theorem nibbles_cover (a : Nat) (ha : a < 256) :
    (a &&& HIGH_NIBBLE) ||| (a &&& LOW_NIBBLE) = a := by
  unfold HIGH_NIBBLE LOW_NIBBLE
  rw [← Nat.and_or_distrib_left]
  exact Nat.and_pow_two_sub_one_of_lt_two_pow (n := 8) ha

/-- Composing an address from two nibbles and splitting it again, for all 256
pairs of nibbles. -/
theorem nibbles_compose : ∀ s < 16, ∀ u < 16,
    ((s <<< 4) &&& HIGH_NIBBLE) ||| (u &&& LOW_NIBBLE) < 256 ∧
    ((((s <<< 4) &&& HIGH_NIBBLE) ||| (u &&& LOW_NIBBLE)) &&& HIGH_NIBBLE) >>> 4 = s ∧
    (((s <<< 4) &&& HIGH_NIBBLE) ||| (u &&& LOW_NIBBLE)) &&& LOW_NIBBLE = u := by
  decide

/-! ## The wire header -/

/-- C1: the first `ARTNET_STRING_SIZE` = 8 bytes of `ARTNET_STRING` are the
seven ASCII characters of "Art-Net" and one zero byte; `MIN_PACKET_SIZE` is
`ARTNET_STRING_SIZE` plus the two bytes of the opcode, which is 10; so a
datagram `d` of at least `MIN_PACKET_SIZE` bytes holds all 8 bytes of the magic
and, after them, both bytes of the opcode. -/
theorem magic_and_min_packet_size (d : List Nat) (hd : MIN_PACKET_SIZE ≤ d.length) :
    ARTNET_STRING.take ARTNET_STRING_SIZE
        = ['A', 'r', 't', '-', 'N', 'e', 't'].map Char.toNat ++ [0]
    ∧ (ARTNET_STRING.take ARTNET_STRING_SIZE).length = 8
    ∧ (∀ c ∈ ['A', 'r', 't', '-', 'N', 'e', 't'].map Char.toNat, 0 < c ∧ c < 128)
    ∧ MIN_PACKET_SIZE = ARTNET_STRING_SIZE + 2
    ∧ MIN_PACKET_SIZE = 10
    ∧ (d.take ARTNET_STRING_SIZE).length = ARTNET_STRING_SIZE
    ∧ ((d.drop ARTNET_STRING_SIZE).take 2).length = 2 := by
  refine ⟨by decide, by decide, by decide, by decide, by decide, ?_, ?_⟩
  · simp only [MIN_PACKET_SIZE, ARTNET_STRING_SIZE] at hd ⊢
    rw [List.length_take]; omega
  · simp only [MIN_PACKET_SIZE, ARTNET_STRING_SIZE] at hd ⊢
    rw [List.length_take, List.length_drop]; omega

/-- The magic followed by the opcode 0x5000 is a datagram of exactly
`MIN_PACKET_SIZE` bytes, and it holds the whole magic and the whole opcode. -/
theorem magic_and_min_packet_size_witness :
    MIN_PACKET_SIZE ≤ (ARTNET_STRING.take 8 ++ [0x00, 0x50]).length
    ∧ ((ARTNET_STRING.take 8 ++ [0x00, 0x50]).take ARTNET_STRING_SIZE).length
        = ARTNET_STRING_SIZE
    ∧ (((ARTNET_STRING.take 8 ++ [0x00, 0x50]).drop ARTNET_STRING_SIZE).take 2).length = 2 :=
  ⟨by decide,
   (magic_and_min_packet_size (ARTNET_STRING.take 8 ++ [0x00, 0x50]) (by decide)).2.2.2.2.2⟩

/-! ## ArtAddress programming values and port addresses -/

/-- C3: for every value `v` at most one of `v = PROGRAM_DEFAULTS`,
`v = PROGRAM_NO_CHANGE`, `v & PROGRAM_CHANGE_MASK ≠ 0` holds, since
`PROGRAM_DEFAULTS` and `PROGRAM_NO_CHANGE` both have the change bit clear; and
when the change bit of `v` is set, the adopted value `v & LOW_NIBBLE` is below
16, with 0x83 giving 3 and 0x85 giving 5. -/
theorem program_cases_exclusive (v : Nat) :
    ¬ (v = PROGRAM_DEFAULTS ∧ v = PROGRAM_NO_CHANGE)
    ∧ ¬ (v = PROGRAM_DEFAULTS ∧ v &&& PROGRAM_CHANGE_MASK ≠ 0)
    ∧ ¬ (v = PROGRAM_NO_CHANGE ∧ v &&& PROGRAM_CHANGE_MASK ≠ 0)
    ∧ PROGRAM_DEFAULTS &&& PROGRAM_CHANGE_MASK = 0
    ∧ PROGRAM_NO_CHANGE &&& PROGRAM_CHANGE_MASK = 0
    ∧ (v &&& PROGRAM_CHANGE_MASK ≠ 0 → v &&& LOW_NIBBLE < 16)
    ∧ (0x83 &&& PROGRAM_CHANGE_MASK ≠ 0 ∧ 0x83 &&& LOW_NIBBLE = 3)
    ∧ (0x85 &&& PROGRAM_CHANGE_MASK ≠ 0 ∧ 0x85 &&& LOW_NIBBLE = 5) := by
  refine ⟨?_, ?_, ?_, by decide, by decide, ?_, by decide, by decide⟩
  · rintro ⟨h0, h1⟩
    rw [h0] at h1
    exact absurd h1 (by decide)
  · rintro ⟨h0, h1⟩
    rw [h0] at h1
    exact h1 (by decide)
  · rintro ⟨h0, h1⟩
    rw [h0] at h1
    exact h1 (by decide)
  · intro _
    exact Nat.and_lt_two_pow v (by decide : LOW_NIBBLE < 2 ^ 4)

/-- The subnet byte 0x83 of the address-change scenario has the change bit set
and adopts the value 3. -/
theorem program_cases_exclusive_witness :
    0x83 &&& PROGRAM_CHANGE_MASK ≠ 0 ∧ 0x83 &&& LOW_NIBBLE < 16 :=
  ⟨by decide, (program_cases_exclusive 0x83).2.2.2.2.2.1 (by decide)⟩

/-- C4: the nibble masks are disjoint and together cover a byte, so every byte
`a` is the union of its two masked parts; and for `s < 16` and `u < 16` the
address `((s << 4) & HIGH_NIBBLE) | (u & LOW_NIBBLE)` is below 256, its high
nibble shifted down is `s` and its low nibble is `u`; subnet 3 with universe 5
is 0x35. -/
theorem port_address_split (a s u : Nat) (ha : a < 256) (hs : s < 16) (hu : u < 16) :
    HIGH_NIBBLE &&& LOW_NIBBLE = 0
    ∧ HIGH_NIBBLE ||| LOW_NIBBLE = 0xFF
    ∧ (a &&& HIGH_NIBBLE) ||| (a &&& LOW_NIBBLE) = a
    ∧ ((s <<< 4) &&& HIGH_NIBBLE) ||| (u &&& LOW_NIBBLE) < 256
    ∧ ((((s <<< 4) &&& HIGH_NIBBLE) ||| (u &&& LOW_NIBBLE)) &&& HIGH_NIBBLE) >>> 4 = s
    ∧ (((s <<< 4) &&& HIGH_NIBBLE) ||| (u &&& LOW_NIBBLE)) &&& LOW_NIBBLE = u
    ∧ ((3 <<< 4) &&& HIGH_NIBBLE) ||| (5 &&& LOW_NIBBLE) = 0x35 := by
  obtain ⟨h1, h2, h3⟩ := nibbles_compose s hs u hu
  exact ⟨by decide, by decide, nibbles_cover a ha, h1, h2, h3, by decide⟩

/-- The address 0x35 of the address-change scenario: it splits into 0x30 and
0x05, and it is composed of subnet 3 and universe 5. -/
theorem port_address_split_witness :
    (0x35 &&& HIGH_NIBBLE) ||| (0x35 &&& LOW_NIBBLE) = 0x35
    ∧ ((((3 <<< 4) &&& HIGH_NIBBLE) ||| (5 &&& LOW_NIBBLE)) &&& HIGH_NIBBLE) >>> 4 = 3
    ∧ (((3 <<< 4) &&& HIGH_NIBBLE) ||| (5 &&& LOW_NIBBLE)) &&& LOW_NIBBLE = 5 :=
  let h := port_address_split 0x35 3 5 (by decide) (by decide) (by decide)
  ⟨h.2.2.1, h.2.2.2.2.1, h.2.2.2.2.2.1⟩

/-! ## Protocol constants -/

/-- C7: the constants of the header have the values the protocol prescribes:
port 6454, merge timeout 10 s, firmware timeout 20 s, protocol version 14, OEM
code `bytes_to_short(OEM_HI, OEM_LO)` = 0x0430 and ESTA code bytes 'z', 'p',
which are 0x7A, 0x70. -/
theorem protocol_constants :
    ARTNET_PORT = 6454
    ∧ MERGE_TIMEOUT_SECONDS = 10
    ∧ FIRMWARE_TIMEOUT_SECONDS = 20
    ∧ ARTNET_VERSION = 14
    ∧ bytes_to_short OEM_HI OEM_LO = 0x0430
    ∧ (ESTA_HI, ESTA_LO) = ('z'.toNat, 'p'.toNat)
    ∧ (ESTA_HI, ESTA_LO) = (0x7A, 0x70) := by
  decide

/-! ## Bytes and shorts -/

/-- C8: splitting a 16-bit value `x` into its high and low byte and joining
them again gives `x`; joining two bytes `h`, `l` and splitting the result gives
back `h` as the high byte and `l` as the low byte. -/
theorem short_bytes_round_trip (x h l : Nat) (hx : x < 65536) (hh : h < 256) (hl : l < 256) :
    bytes_to_short (short_get_high_byte x) (short_get_low_byte x) = x
    ∧ short_get_high_byte (bytes_to_short h l) = h
    ∧ short_get_low_byte (bytes_to_short h l) = l := by
  refine ⟨?_, ?_, ?_⟩
  · rw [bytes_to_short_eq, short_get_high_byte_eq, short_get_low_byte_eq]
    omega
  · rw [short_get_high_byte_eq, bytes_to_short_eq]
    omega
  · rw [short_get_low_byte_eq, bytes_to_short_eq]
    omega

/-- The OEM code 0x0430 splits into 0x04 and 0x30 and is joined from them. -/
theorem short_bytes_round_trip_witness :
    bytes_to_short (short_get_high_byte 0x0430) (short_get_low_byte 0x0430) = 0x0430
    ∧ short_get_high_byte (bytes_to_short 0x04 0x30) = 0x04
    ∧ short_get_low_byte (bytes_to_short 0x04 0x30) = 0x30 :=
  short_bytes_round_trip 0x0430 0x04 0x30 (by decide) (by decide) (by decide)

/-- C9: `bswap_16` undoes itself on every 16-bit value `x`; its value is below
`2 ^ 16` for every natural number `y`; on a short joined from `h` and `l`
(bytes or not: `bytes_to_short` masks both) it gives the short joined from `l`
and `h`; and so `htols`, whichever definition the preprocessor picks, undoes
itself on every 16-bit value. -/
theorem bswap_16_involution (x y h l : Nat) (hx : x < 65536)
    (HAVE_ENDIAN_H : Bool) (BYTE_ORDER BIG_ENDIAN__ BIG_ENDIAN : Nat) :
    bswap_16 (bswap_16 x) = x
    ∧ bswap_16 y < 2 ^ 16
    ∧ bswap_16 (bytes_to_short h l) = bytes_to_short l h
    ∧ htols HAVE_ENDIAN_H BYTE_ORDER BIG_ENDIAN__ BIG_ENDIAN
        (htols HAVE_ENDIAN_H BYTE_ORDER BIG_ENDIAN__ BIG_ENDIAN x) = x := by
  have inv : bswap_16 (bswap_16 x) = x := by
    rw [bswap_16_eq, bswap_16_eq,
      split_mod _ _ (Nat.mod_lt _ (by decide)), split_div _ _ (Nat.mod_lt _ (by decide))]
    omega
  refine ⟨inv, ?_, ?_, ?_⟩
  · rw [bswap_16_eq]
    omega
  · rw [bswap_16_eq, bytes_to_short_eq, bytes_to_short_eq]
    omega
  · unfold htols
    cases HAVE_ENDIAN_H
    · by_cases hb : BYTE_ORDER = BIG_ENDIAN <;> simp [hb, inv]
    · by_cases hb : BYTE_ORDER = BIG_ENDIAN__ <;> simp [hb, inv]

/-- The opcode 0x5000 on a big-endian host that has `endian.h` (both
`BYTE_ORDER` and `__BIG_ENDIAN` are 4321): swapping it twice gives it back. -/
theorem bswap_16_involution_witness :
    bswap_16 (bswap_16 0x5000) = 0x5000
    ∧ bswap_16 0x12345678 < 2 ^ 16
    ∧ bswap_16 (bytes_to_short 0x50 0x00) = bytes_to_short 0x00 0x50
    ∧ htols true 4321 4321 4321 (htols true 4321 4321 4321 0x5000) = 0x5000 :=
  bswap_16_involution 0x5000 0x12345678 0x50 0x00 (by decide) true 4321 4321 4321

/-- C2: let the comparison the preprocessor makes (`BYTE_ORDER` against
`__BIG_ENDIAN` with `HAVE_ENDIAN_H`, against `BIG_ENDIAN` without) be true
exactly on a big-endian host. Then for every 16-bit `x`, a `uint16_t` holding
`htols(x)` has in memory the byte `x & 0xFF` first and the byte
`(x >> 8) & 0xFF` second, on either host; on a little-endian host `htols(x)` is
`x`, on a big-endian host it is `bswap_16(x)`. -/
theorem htols_little_endian (host : ByteOrder) (HAVE_ENDIAN_H : Bool)
    (BYTE_ORDER BIG_ENDIAN__ BIG_ENDIAN : Nat) (x : Nat) (hx : x < 65536)
    (hreal : BYTE_ORDER = (if HAVE_ENDIAN_H then BIG_ENDIAN__ else BIG_ENDIAN)
      ↔ host = ByteOrder.big) :
    store16 host (htols HAVE_ENDIAN_H BYTE_ORDER BIG_ENDIAN__ BIG_ENDIAN x)
        = [x &&& 0xFF, (x >>> 8) &&& 0xFF]
    ∧ (host = ByteOrder.little →
        htols HAVE_ENDIAN_H BYTE_ORDER BIG_ENDIAN__ BIG_ENDIAN x = x)
    ∧ (host = ByteOrder.big →
        htols HAVE_ENDIAN_H BYTE_ORDER BIG_ENDIAN__ BIG_ENDIAN x = bswap_16 x) := by
  have hle : host = ByteOrder.little →
      htols HAVE_ENDIAN_H BYTE_ORDER BIG_ENDIAN__ BIG_ENDIAN x = x := by
    intro hh
    have hne : ¬ BYTE_ORDER = (if HAVE_ENDIAN_H then BIG_ENDIAN__ else BIG_ENDIAN) := by
      intro hc
      have := hreal.mp hc
      rw [hh] at this
      exact ByteOrder.noConfusion this
    unfold htols
    cases HAVE_ENDIAN_H <;> simp_all
  have hbe : host = ByteOrder.big →
      htols HAVE_ENDIAN_H BYTE_ORDER BIG_ENDIAN__ BIG_ENDIAN x = bswap_16 x := by
    intro hh
    have he := hreal.mpr hh
    unfold htols
    cases HAVE_ENDIAN_H <;> simp_all
  refine ⟨?_, hle, hbe⟩
  rw [and_ff, and_ff, shr8]
  cases host
  · rw [hle rfl]
    simp only [store16, List.cons.injEq, and_true]
    omega
  · rw [hbe rfl, bswap_16_eq]
    have hlt : x % 256 * 256 + x / 256 % 256 < 65536 := by omega
    simp only [store16, List.cons.injEq, and_true, Nat.mod_eq_of_lt hlt]
    rw [split_mod _ _ (Nat.mod_lt _ (by decide)), split_div _ _ (Nat.mod_lt _ (by decide))]
    omega

/-- The opcode 0x5000 on a big-endian host with `endian.h`, where `BYTE_ORDER`
and `__BIG_ENDIAN` are both 4321 (and `BIG_ENDIAN` too): the bytes in memory are
0x00 then 0x50. -/
theorem htols_little_endian_witness :
    ((4321 : Nat) = (if true then 4321 else 4321) ↔ ByteOrder.big = ByteOrder.big)
    ∧ store16 ByteOrder.big (htols true 4321 4321 4321 0x5000) = [0x00, 0x50]
    ∧ htols true 4321 4321 4321 0x5000 = 0x0050 :=
  let h := htols_little_endian ByteOrder.big true 4321 4321 4321 0x5000 (by decide)
    (by decide)
  ⟨by decide, h.1, h.2.2 rfl⟩

/-! ## HTP merging -/

/-- C6: for two source buffers `A` and `B` of the same length, the HTP output
has that length and its channel `i` is the macro `max` of `A[i]` and `B[i]`,
which is the mathematical maximum: at least both and equal to one of them. So
the output does not depend on which source is in which slot. The buffers
[100, 200, 50] and [150, 100, 50] merge to [150, 200, 50]. (Neither the bound
of 512 channels nor the byte range of the values is needed.) -/
theorem htp_is_channel_maximum (A B : List Nat) (hlen : A.length = B.length)
    (i a b : Nat) (ha : A[i]? = some a) (hb : B[i]? = some b) :
    (merge_htp A B).length = A.length
    ∧ (merge_htp A B)[i]? = some (max a b)
    ∧ max a b = Nat.max a b
    ∧ a ≤ max a b ∧ b ≤ max a b ∧ (max a b = a ∨ max a b = b)
    ∧ max a b = max b a
    ∧ merge_htp A B = merge_htp B A
    ∧ merge_htp [100, 200, 50] [150, 100, 50] = [150, 200, 50] := by
  refine ⟨?_, ?_, max_eq_natMax a b, ?_, ?_, ?_, max_macro_comm a b, ?_, by decide⟩
  · simp [merge_htp, hlen]
  · simp [merge_htp, List.getElem?_zipWith, ha, hb]
  · unfold max; split <;> omega
  · unfold max; split <;> omega
  · unfold max; split <;> simp
  · unfold merge_htp
    rw [List.zipWith_comm]
    congr 1
    funext p q
    exact max_macro_comm q p

/-- The HTP scenario, channel 1: the sources send 200 and 100, the output is
200, whichever slot each source is in. -/
theorem htp_is_channel_maximum_witness :
    (merge_htp [100, 200, 50] [150, 100, 50])[1]? = some (max 200 100)
    ∧ max 200 100 = 200
    ∧ merge_htp [100, 200, 50] [150, 100, 50] = merge_htp [150, 100, 50] [100, 200, 50] :=
  let h := htp_is_channel_maximum [100, 200, 50] [150, 100, 50] rfl 1 200 100 rfl rfl
  ⟨h.2.1, h.2.2.1, h.2.2.2.2.2.2.2.1⟩

/-! ## Firmware block types -/

/-- C10: the six firmware block type codes are pairwise distinct and are
exactly 0, 1, 2, 3, 4, 5 (and the six enumerators are all there are). Every
code is `3 * ubea + phase` for the UBEA flag and the phase of its enumerator,
and for no other `u` and `p < 3`; the UBEA flag is `code ≥ 3`, the phase is
`code mod 3`, and the UBEA variant of a firmware block type has its code
plus 3. -/
theorem firmware_type_codes (t : artnet_firmware_type_code) (u p : Nat)
    (hp : p < 3) (hcode : t.code = 3 * u + p) :
    (artnet_firmware_type_code.all.map artnet_firmware_type_code.code).Nodup
    ∧ artnet_firmware_type_code.all.map artnet_firmware_type_code.code = [0, 1, 2, 3, 4, 5]
    ∧ t ∈ artnet_firmware_type_code.all
    ∧ ([ARTNET_FIRMWARE_FIRMFIRST, ARTNET_FIRMWARE_FIRMCONT,
        ARTNET_FIRMWARE_FIRMLAST].map artnet_firmware_type_code.code = [0, 1, 2])
    ∧ ([ARTNET_FIRMWARE_UBEAFIRST, ARTNET_FIRMWARE_UBEACONT,
        ARTNET_FIRMWARE_UBEALAST].map artnet_firmware_type_code.code = [3, 4, 5])
    ∧ t.code = 3 * (if t.isUbea then 1 else 0) + t.phase
    ∧ (u = (if t.isUbea then 1 else 0) ∧ p = t.phase)
    ∧ t.isUbea = decide (t.code ≥ 3)
    ∧ t.phase = t.code % 3
    ∧ (t.isUbea = false → t.ubeaVariant.code = t.code + 3)
    ∧ t.ubeaVariant.isUbea = true ∧ t.ubeaVariant.phase = t.phase := by
  refine ⟨by decide, by decide, ?_, by decide, by decide, ?_, ?_, ?_, ?_, ?_, ?_, ?_⟩
  · cases t <;> decide
  · cases t <;> rfl
  · cases t <;> simp [artnet_firmware_type_code.code, artnet_firmware_type_code.isUbea,
      artnet_firmware_type_code.phase] at hcode ⊢ <;> omega
  · cases t <;> rfl
  · cases t <;> rfl
  · cases t <;> simp [artnet_firmware_type_code.code, artnet_firmware_type_code.isUbea,
      artnet_firmware_type_code.ubeaVariant]
  · cases t <;> rfl
  · cases t <;> rfl

/-- The block type `ARTNET_FIRMWARE_FIRMLAST`, code 2 = 3 * 0 + 2: no UBEA,
phase 2, and its UBEA variant has code 5. -/
theorem firmware_type_codes_witness :
    ARTNET_FIRMWARE_FIRMLAST.code = 3 * 0 + 2
    ∧ ARTNET_FIRMWARE_FIRMLAST.isUbea = decide (ARTNET_FIRMWARE_FIRMLAST.code ≥ 3)
    ∧ ARTNET_FIRMWARE_FIRMLAST.phase = ARTNET_FIRMWARE_FIRMLAST.code % 3
    ∧ ARTNET_FIRMWARE_FIRMLAST.ubeaVariant.code = ARTNET_FIRMWARE_FIRMLAST.code + 3 :=
  let h := firmware_type_codes ARTNET_FIRMWARE_FIRMLAST 0 2 (by decide) rfl
  ⟨rfl, h.2.2.2.2.2.2.2.1, h.2.2.2.2.2.2.2.2.1, h.2.2.2.2.2.2.2.2.2.1 rfl⟩

/-! ## Port status bits -/

/-- Reading back seven conditions from one status byte, for all 128
combinations. -/
theorem port_status_seven_round_trip : ∀ c1 c2 c3 c4 c5 c6 c7 : Bool,
    port_status_read port_status_masks_one_byte
      (port_status_set port_status_masks_one_byte [c1, c2, c3, c4, c5, c6, c7])
      = [c1, c2, c3, c4, c5, c6, c7] := by
  decide

/-- C5, as stated, fails: `PORT_STATUS_SHORT` and `PORT_STATUS_ERROR` are the
same mask 0x04, so the eight masks are not pairwise distinct, and the
combination "short-circuit and nothing else" is read back from the status byte
as "short-circuit and error". -/
theorem port_status_masks_not_distinct :
    PORT_STATUS_SHORT = PORT_STATUS_ERROR
    ∧ ¬ port_status_masks.Pairwise (fun m n => m ≠ n)
    ∧ port_status_set port_status_masks
        [false, true, false, false, false, false, false, false] = 0x04
    ∧ port_status_read port_status_masks 0x04
        = [false, true, true, false, false, false, false, false]
    ∧ port_status_read port_status_masks
        (port_status_set port_status_masks
          [false, true, false, false, false, false, false, false])
        ≠ [false, true, false, false, false, false, false, false] := by
  decide

/-- C5, amended: each of the eight masks is a single bit of the 8-bit status;
`PORT_STATUS_SHORT` and `PORT_STATUS_ERROR` are the same bit 0x04, so in every
status byte short-circuit and error read the same; the seven masks left when
`PORT_STATUS_ERROR` is set aside are pairwise distinct, and every combination
`conds` of the seven conditions they stand for is read back from one status
byte, which is below 256. -/
theorem port_status_bits (conds : List Bool) (hlen : conds.length = 7) (status : Nat) :
    (∀ m ∈ port_status_masks, ∃ k, k < 8 ∧ m = 2 ^ k)
    ∧ PORT_STATUS_SHORT = PORT_STATUS_ERROR
    ∧ ((status &&& PORT_STATUS_SHORT != 0) = (status &&& PORT_STATUS_ERROR != 0))
    ∧ port_status_masks_one_byte.Pairwise (fun m n => m ≠ n)
    ∧ (∀ m, m ∈ port_status_masks ↔ m ∈ port_status_masks_one_byte)
    ∧ port_status_set port_status_masks_one_byte conds < 256
    ∧ port_status_read port_status_masks_one_byte
        (port_status_set port_status_masks_one_byte conds) = conds := by
  have hread : port_status_read port_status_masks_one_byte
      (port_status_set port_status_masks_one_byte conds) = conds := by
    match conds, hlen with
    | [c1, c2, c3, c4, c5, c6, c7], _ => exact port_status_seven_round_trip c1 c2 c3 c4 c5 c6 c7
  have hlt : port_status_set port_status_masks_one_byte conds < 256 := by
    match conds, hlen with
    | [c1, c2, c3, c4, c5, c6, c7], _ =>
      revert c1 c2 c3 c4 c5 c6 c7
      decide
  refine ⟨?_, rfl, rfl, by decide, ?_, hlt, hread⟩
  · intro m hm
    simp only [port_status_masks, List.mem_cons, List.mem_singleton, List.not_mem_nil,
      or_false] at hm
    rcases hm with h | h | h | h | h | h | h | h
    · exact ⟨1, by decide, h⟩
    · exact ⟨2, by decide, h⟩
    · exact ⟨2, by decide, h⟩
    · exact ⟨3, by decide, h⟩
    · exact ⟨4, by decide, h⟩
    · exact ⟨5, by decide, h⟩
    · exact ⟨6, by decide, h⟩
    · exact ⟨7, by decide, h⟩
  · intro m
    simp only [port_status_masks, port_status_masks_one_byte, PORT_STATUS_ERROR,
      PORT_STATUS_SHORT, List.mem_cons, List.mem_singleton, List.not_mem_nil, or_false]
    tauto

/-- A port that is LPT-merging, in test mode and active, and nothing else:
the status byte is 0xC2 and the seven conditions are read back from it. -/
theorem port_status_bits_witness :
    [true, false, false, false, false, true, true].length = 7
    ∧ port_status_set port_status_masks_one_byte
        [true, false, false, false, false, true, true] = 0xC2
    ∧ port_status_read port_status_masks_one_byte
        (port_status_set port_status_masks_one_byte
          [true, false, false, false, false, true, true])
        = [true, false, false, false, false, true, true] :=
  ⟨rfl, by decide,
   (port_status_bits [true, false, false, false, false, true, true] rfl 0).2.2.2.2.2.2⟩

end Artnet
